import Mathlib

/-!
Verification of the tool layer of a natural-language-to-SQL agent.

The program under study (`tools.py`) exposes three tool functions to an
external reasoning loop:

* `execute_sql(conn, query, query_history)` — appends `query` to the history
  list if one was given, executes the statement, returns `str(rows)` for
  statements that produce a result set (`cursor.description` non-null),
  commits and returns a fixed success message otherwise, and converts any
  `sqlite3.Error` into an `"Error: ..."` string;
* `get_schema(conn, table_name)` — renders `PRAGMA table_info(<name>)` as a
  list of `(column_name, column_type)` pairs when `table_name` is truthy, and
  the list of all table names from `sqlite_master` otherwise; it has no
  exception handler of its own;
* `save_data_to_csv(data, filename)` — rejects non-list data with a fixed
  error string, normalises rows, forces a `.csv` extension (case-insensitive
  check), creates `<cwd>/files`, writes the rows with `csv.writer`, and
  converts any exception into an `"Error saving CSV: ..."` string.

The SQLite engine, the Python `str`/`repr` renderings and the `os`/`csv`
library calls are external to the repository; they are embedded here as
explicit models (abstract statement semantics, a character-level rendering of
Python `repr`, and an abstract record of filesystem operations), each
documented at its definition.
-/

namespace SqlAgent

/-! ## Python scalar values and the `str`/`repr` rendering -/

/-- A SQLite scalar value as surfaced to Python by `cursor.fetchall()`.
`REAL` and `BLOB` values are outside the model: their Python renderings are
floating-point formatting and `bytes` escapes, which this embedding does not
treat. -/
inductive PyVal where
  | nullV : PyVal
  | intV : Int → PyVal
  | textV : String → PyVal
deriving DecidableEq

/-- One fetched row: Python renders it as a tuple. -/
abbrev Row := List PyVal

/-- The decimal digit characters, as produced by Python's integer
formatting. -/
def digitChar : Nat → Char
  | 0 => '0' | 1 => '1' | 2 => '2' | 3 => '3' | 4 => '4'
  | 5 => '5' | 6 => '6' | 7 => '7' | 8 => '8' | _ => '9'

/-- The numeric value of a decimal digit character. -/
def digitVal (c : Char) : Nat := c.toNat - 48

/-- Fuelled most-significant-first decimal rendering of a natural number. -/
def natDigits : Nat → Nat → List Char
  | 0, _ => []
  | fuel + 1, n =>
    if n < 10 then [digitChar n]
    else natDigits fuel (n / 10) ++ [digitChar (n % 10)]

/-- Decimal rendering of a natural number (`fuel := n + 1` always suffices). -/
def natChars (n : Nat) : List Char := natDigits (n + 1) n

/-- Modelled from the spec: Python's rendering of an `int`, a minus sign
followed by the decimal digits of the absolute value. -/
def intChars (z : Int) : List Char :=
  if z < 0 then '-' :: natChars z.natAbs else natChars z.natAbs

/-- Modelled from the spec: the quote character Python `repr` picks for a
string — single quotes unless the string contains a single quote and no
double quote. -/
def pyQuote (s : String) : Char :=
  if s.data.contains '\'' && !(s.data.contains '"') then '"' else '\''

/-- Modelled from the spec: Python `repr`'s escaping of one character inside
a string delimited by `q`. Backslashes, the delimiter and the common control
characters are escaped; other non-printable characters (which Python would
hex-escape) are outside the model. -/
def escCharP (q c : Char) : List Char :=
  if c = '\\' then ['\\', '\\']
  else if c = q then ['\\', q]
  else if c = '\n' then ['\\', 'n']
  else if c = '\r' then ['\\', 'r']
  else if c = '\t' then ['\\', 't']
  else [c]

/-- Modelled from the spec: Python `repr` of a string. -/
def reprStrChars (s : String) : List Char :=
  pyQuote s :: (s.data.flatMap (escCharP (pyQuote s)) ++ [pyQuote s])

/-- Modelled from the spec: Python `repr` of one scalar value. -/
def reprValChars : PyVal → List Char
  | PyVal.nullV => ['N', 'o', 'n', 'e']
  | PyVal.intV z => intChars z
  | PyVal.textV s => reprStrChars s

/-- Interleave a separator between rendered pieces (Python's
`", ".join`-style joining used by the `repr` of lists and tuples). -/
def sepJoin (sep : List Char) : List (List Char) → List Char
  | [] => []
  | [x] => x
  | x :: y :: xs => x ++ sep ++ sepJoin sep (y :: xs)

/-- Modelled from the spec: Python `repr` of a row tuple — `()`, `(v,)` for a
1-tuple, and `(v1, v2, ...)` otherwise. -/
def reprRowChars : Row → List Char
  | [] => ['(', ')']
  | [v] => '(' :: (reprValChars v ++ [',', ')'])
  | v1 :: v2 :: vs =>
    '(' :: (sepJoin [',', ' ']
      (reprValChars v1 :: reprValChars v2 :: vs.map reprValChars) ++ [')'])

/-- Modelled from the spec: the characters of Python `str(rows)` for the list
of fetched rows. -/
def reprRowsChars (rs : List Row) : List Char :=
  '[' :: (sepJoin [',', ' '] (rs.map reprRowChars) ++ [']'])

/-- Python `str(rows)`: the string `execute_sql` returns for a statement that
produced a result set. -/
def pyStrRows (rs : List Row) : String := String.mk (reprRowsChars rs)

/-- Modelled from the spec: Python `repr` of a `(column_name, column_type)`
pair of strings, as rendered by `get_schema`. -/
def reprPairChars (p : String × String) : List Char :=
  '(' :: (reprStrChars p.1 ++ [',', ' '] ++ reprStrChars p.2 ++ [')'])

/-- Python `str` of a list of strings (the all-tables rendering of
`get_schema`). -/
def pyStrStrList (xs : List String) : String :=
  String.mk ('[' :: (sepJoin [',', ' '] (xs.map reprStrChars) ++ [']']))

/-- Python `str` of a list of string pairs (the per-table rendering of
`get_schema`). -/
def pyStrPairList (ps : List (String × String)) : String :=
  String.mk ('[' :: (sepJoin [',', ' '] (ps.map reprPairChars) ++ [']']))

/-! ## The SQLite engine model and `execute_sql` -/

/-- Modelled from the spec: what one SQL statement means to the engine over a
connection-visible database state `σ` — either a statement that produces a
result set (`cursor.description` is non-null: any SELECT-shaped statement),
or one that does not (INSERT/UPDATE/DELETE/DDL). Either kind may instead
raise a `sqlite3.Error`, carried by `Except.error`. -/
inductive Stmt (σ : Type) where
  | selectQ : (σ → Except String (List Row)) → Stmt σ
  | mutateQ : (σ → Except String σ) → Stmt σ

/-- Modelled from the spec: the engine's reading of query text. A parse
failure (malformed SQL) is `Except.error` with the engine's message. -/
abbrev SqlSem (σ : Type) := String → Except String (Stmt σ)

/-- The state behind one open connection: the durably committed state and the
current state the connection sees (SQLite's implicit transaction keeps
uncommitted changes visible on the same connection). -/
structure DbState (σ : Type) where
  committed : σ
  current : σ
deriving DecidableEq

variable {σ : Type}

/-- `conn.commit()`: the current state becomes durable. -/
def DbState.commit (db : DbState σ) : DbState σ := { db with committed := db.current }

/-- The body of `execute_sql`'s `try` block: run the statement; return
`str(rows)` when a result set was produced, otherwise commit and return the
fixed success message. `Except.error` is a `sqlite3.Error` escaping the
block. -/
def execute_sql_try (sem : SqlSem σ) (db : DbState σ) (query : String) :
    Except String (String × DbState σ) :=
  match sem query with
  | Except.error e => Except.error e
  | Except.ok (Stmt.selectQ read) =>
    match read db.current with
    | Except.error e => Except.error e
    | Except.ok rows => Except.ok (pyStrRows rows, db)
  | Except.ok (Stmt.mutateQ write) =>
    match write db.current with
    | Except.error e => Except.error e
    | Except.ok s =>
      Except.ok ("Query executed successfully (no data returned).",
        DbState.commit { db with current := s })

/-- `execute_sql(conn, query, query_history)`: append the query to the
history first (if a history was given), then run the `try` block, converting
any `sqlite3.Error` into an `"Error: ..."` string. Returns the message
together with the resulting connection state and history. -/
def execute_sql (sem : SqlSem σ) (db : DbState σ) (query : String)
    (query_history : Option (List String)) :
    String × DbState σ × Option (List String) :=
  let history := query_history.map (fun h => h ++ [query])
  match execute_sql_try sem db query with
  | Except.ok (msg, db2) => (msg, db2, history)
  | Except.error e => ("Error: " ++ e, db, history)

/-- The `sqlite3.Error` produced by running `query` on `db`, if any: a parse
error, or an error raised while executing the statement. -/
def engineError (sem : SqlSem σ) (db : DbState σ) (query : String) : Option String :=
  match sem query with
  | Except.error e => some e
  | Except.ok (Stmt.selectQ read) =>
    match read db.current with
    | Except.error e => some e
    | Except.ok _ => none
  | Except.ok (Stmt.mutateQ write) =>
    match write db.current with
    | Except.error e => some e
    | Except.ok _ => none

/-- Run a list of queries in order through `execute_sql`, threading the
connection state and a shared history list. -/
def runQueries (sem : SqlSem σ) : List String → DbState σ × List String →
    DbState σ × List String
  | [], st => st
  | q :: qs, (db, h) =>
    let r := execute_sql sem db q (some h)
    runQueries sem qs (r.2.1, (r.2.2).getD h)

/-! ## The catalog model and `get_schema` -/

/-- The database catalog: each table's name with its columns as
`(column_name, column_type)` pairs, in catalog order. -/
abbrev Catalog := List (String × List (String × String))

/-- The `sqlite_master` table-name query of `get_schema`. -/
def tableNames (cat : Catalog) : List String := cat.map Prod.fst

/-- A table name that interpolates into `PRAGMA table_info(<name>);` as a
plain identifier. -/
def validIdent (t : String) : Bool :=
  match t.data with
  | [] => false
  | c :: cs => (c.isAlpha || c = '_') && cs.all (fun d => d.isAlphanum || d = '_')

/-- Modelled from the spec: `PRAGMA table_info(<name>);` with the name
interpolated directly into the query text. For an identifier it yields the
table's columns, or the empty list when the table does not exist; a malformed
name makes the interpolated query text malformed, and the engine raises a
`sqlite3.Error` (`Except.error`). -/
def pragma_table_info (cat : Catalog) (t : String) :
    Except String (List (String × String)) :=
  if validIdent t then
    Except.ok (((cat.find? (fun e => e.1 == t)).map Prod.snd).getD [])
  else
    Except.error ("unrecognized token in \"PRAGMA table_info(" ++ t ++ ");\"")

/-- Python truthiness of the `table_name` argument (`if table_name:`): false
for `None` and for the empty string. -/
def truthy : Option String → Bool
  | none => false
  | some t => !(t == "")

/-- `get_schema(conn, table_name)`: with a truthy table name, render the
`PRAGMA table_info` pairs; otherwise render the list of all table names.
There is no exception handler, so an engine error propagates to the caller
(`Except.error`). -/
def get_schema (cat : Catalog) (table_name : Option String) : Except String String :=
  if truthy table_name then
    match pragma_table_info cat (table_name.getD "") with
    | Except.ok cols => Except.ok (pyStrPairList cols)
    | Except.error e => Except.error e
  else
    Except.ok (pyStrStrList (tableNames cat))

/-! ## The filesystem model and `save_data_to_csv` -/

/-- One element of the `data` argument: a list or tuple of fields, or a bare
scalar (kept as a single-field row by the normalisation). -/
inductive PyElem where
  | seqE : List PyVal → PyElem
  | scalarE : PyVal → PyElem
deriving DecidableEq

/-- The `data` argument of `save_data_to_csv`: a Python list, or a raw string
(any non-list value fails the `isinstance(data, list)` check the same way the
string does). -/
inductive PyData where
  | strD : String → PyData
  | listD : List PyElem → PyData
deriving DecidableEq

/-- `list(row) if isinstance(row, (list, tuple)) else [row]`. -/
def normalizeRow : PyElem → Row
  | PyElem.seqE fs => fs
  | PyElem.scalarE v => [v]

/-- Modelled from the spec: the field text `csv.writer` emits for one scalar
(`str()` of the value, with `None` written as the empty field). -/
def pyStrScalar : PyVal → String
  | PyVal.nullV => ""
  | PyVal.intV z => String.mk (intChars z)
  | PyVal.textV s => s

/-- Modelled from the spec: `csv.writer`'s minimal quoting — a field is
quoted iff it contains the delimiter, the quote character or a line break. -/
def csvNeedsQuote (f : String) : Bool :=
  f.data.any (fun c => c == ',' || c == '"' || c == '\n' || c == '\r')

/-- Double every quote character inside a quoted CSV field. -/
def csvEscapeQuotes (f : String) : String :=
  String.mk (f.data.flatMap (fun c => if c = '"' then ['"', '"'] else [c]))

/-- One CSV field as written by `csv.writer`. -/
def csvField (v : PyVal) : String :=
  let f := pyStrScalar v
  if csvNeedsQuote f then "\"" ++ csvEscapeQuotes f ++ "\"" else f

/-- One CSV record: comma-separated fields with the default `\r\n`
terminator. -/
def csvLine (r : Row) : String :=
  String.intercalate "," (r.map csvField) ++ "\r\n"

/-- The full file contents `csv.writer(f).writerows(rows)` produces. -/
def csvRender (rows : List Row) : String := String.join (rows.map csvLine)

/-- Python `filename.lower().endswith(".csv")`. -/
def endsWithCsvLower (filename : String) : Bool :=
  let l := filename.data.map Char.toLower
  l.drop (l.length - 4) == ['.', 'c', 's', 'v']

/-- The output file name: `.csv` is appended unless already present
(case-insensitive check). -/
def csvFileName (filename : String) : String :=
  if endsWithCsvLower filename then filename else filename ++ ".csv"

/-- Modelled from the spec: the `os`/file operations `save_data_to_csv`
performs, over an abstract filesystem state `φ`. Each may fail with an
exception message (`Except.error`), as real I/O can. -/
structure OsOps (φ : Type) where
  makedirs : φ → String → Except String φ
  writeFile : φ → String → String → Except String φ

variable {φ : Type}

/-- The body of `save_data_to_csv`'s `try` block: reject non-list data with a
fixed error string (a normal return, not an exception), normalise the rows,
fix the extension, create `<cwd>/files`, and write the rendered CSV. The
working directory `cwd` is an absolute path, so `os.path.abspath` of the
joined path is the joined path itself. `Except.error` is an exception
escaping the block, paired with the filesystem state at that point. -/
def save_data_to_csv_try (os : OsOps φ) (fs : φ) (cwd : String) (data : PyData)
    (filename : String) : Except String String × φ :=
  match data with
  | PyData.strD _ => (Except.ok "Error: Data must be a list of tuples or lists.", fs)
  | PyData.listD elems =>
    let rows := elems.map normalizeRow
    let fname := csvFileName filename
    let base_dir := cwd ++ "/files"
    match os.makedirs fs base_dir with
    | Except.error e => (Except.error e, fs)
    | Except.ok fs1 =>
      let file_path := base_dir ++ "/" ++ fname
      match os.writeFile fs1 file_path (csvRender rows) with
      | Except.error e => (Except.error e, fs1)
      | Except.ok fs2 =>
        (Except.ok ("Data saved successfully to: " ++ file_path), fs2)

/-- `save_data_to_csv(data, filename)`: the `try` block with every escaping
exception converted into an `"Error saving CSV: ..."` string. Returns the
message and the final filesystem state. -/
def save_data_to_csv (os : OsOps φ) (fs : φ) (cwd : String) (data : PyData)
    (filename : String) : String × φ :=
  match save_data_to_csv_try os fs cwd data filename with
  | (Except.ok msg, fs2) => (msg, fs2)
  | (Except.error e, fs2) => ("Error saving CSV: " ++ e, fs2)

/-- A concrete filesystem: the set of created directories and the files with
their contents (writing replaces any previous contents — the tool silently
overwrites). -/
structure FileSys where
  dirs : List String
  files : List (String × String)
deriving DecidableEq

/-- The concrete filesystem operations: `makedirs` with `exist_ok=True` and
an overwriting file write, neither of which fails. -/
def fsOps : OsOps FileSys where
  makedirs := fun fs d =>
    Except.ok { fs with dirs := if fs.dirs.contains d then fs.dirs else d :: fs.dirs }
  writeFile := fun fs p c =>
    Except.ok { dirs := fs.dirs, files := (p, c) :: fs.files.filter (fun e => !(e.1 == p)) }

/-! ## A parser inverting `str(rows)`

The spec's "parseable back into the same row tuples" is witnessed by an
executable parser for the `str(rows)` rendering (`ast.literal_eval`-style)
that is proved to invert it. -/

/-- Consume a maximal run of decimal digits, folding them onto `acc`. -/
def parseNatAux : List Char → Nat → Nat × List Char
  | [], acc => (acc, [])
  | c :: rest, acc =>
    if c.isDigit then parseNatAux rest (acc * 10 + digitVal c) else (acc, c :: rest)

/-- Consume a string body up to the closing quote `q`, undoing the
escapes `escCharP` introduces; `acc` holds the chars read so far,
reversed. -/
def parseStrBody (q : Char) : List Char → List Char → Option (String × List Char)
  | [], _ => none
  | c :: rest, acc =>
    if c = '\\' then
      match rest with
      | [] => none
      | e :: rest2 =>
        if e = '\\' then parseStrBody q rest2 ('\\' :: acc)
        else if e = q then parseStrBody q rest2 (q :: acc)
        else if e = 'n' then parseStrBody q rest2 ('\n' :: acc)
        else if e = 'r' then parseStrBody q rest2 ('\r' :: acc)
        else if e = 't' then parseStrBody q rest2 ('\t' :: acc)
        else none
    else if c = q then some (String.mk acc.reverse, rest)
    else parseStrBody q rest (c :: acc)

/-- Parse one rendered scalar: `None`, a quoted string, or a decimal
integer with optional minus sign. -/
def parseVal (input : List Char) : Option (PyVal × List Char) :=
  match input with
  | [] => none
  | c :: rest =>
    if c = 'N' then
      match rest with
      | 'o' :: 'n' :: 'e' :: r => some (PyVal.nullV, r)
      | _ => none
    else if c = '\'' then
      (parseStrBody '\'' rest []).map (fun p => (PyVal.textV p.1, p.2))
    else if c = '"' then
      (parseStrBody '"' rest []).map (fun p => (PyVal.textV p.1, p.2))
    else if c = '-' then
      match rest with
      | [] => none
      | c2 :: rest2 =>
        if c2.isDigit then
          let p := parseNatAux rest2 (digitVal c2)
          some (PyVal.intV (-(p.1 : Int)), p.2)
        else none
    else if c.isDigit then
      let p := parseNatAux rest (digitVal c)
      some (PyVal.intV (p.1 : Int), p.2)
    else none

/-- After the first value of a tuple: read `", " value` repetitions until
the closing `)` (or the 1-tuple's trailing `,)`); `acc` holds the values
read so far, reversed. The fuel bounds the number of further values. -/
def parseTupleTail : Nat → List Char → List PyVal → Option (List PyVal × List Char)
  | fuel, input, acc =>
    match input with
    | [] => none
    | c :: rest =>
      if c = ',' then
        match rest with
        | [] => none
        | c2 :: rest2 =>
          if c2 = ')' then some (acc.reverse, rest2)
          else if c2 = ' ' then
            match fuel with
            | 0 => none
            | fuel' + 1 =>
              match parseVal rest2 with
              | some (v, r) => parseTupleTail fuel' r (v :: acc)
              | none => none
          else none
      else if c = ')' then some (acc.reverse, rest)
      else none

/-- Parse one rendered tuple, starting at its `(`. -/
def parseTupleChars (fuel : Nat) (input : List Char) : Option (List PyVal × List Char) :=
  match input with
  | [] => none
  | c :: rest =>
    if c = '(' then
      match rest with
      | [] => none
      | c2 :: rest2 =>
        if c2 = ')' then some ([], rest2)
        else
          match parseVal (c2 :: rest2) with
          | some (v, r) => parseTupleTail fuel r [v]
          | none => none
    else none

/-- After the first tuple of the list: read `", " tuple` repetitions until
the closing `]`; `acc` holds the rows read so far, reversed. -/
def parseRowsTail : Nat → List Char → List Row → Option (List Row × List Char)
  | fuel, input, acc =>
    match input with
    | [] => none
    | c :: rest =>
      if c = ']' then some (acc.reverse, rest)
      else if c = ',' then
        match rest with
        | [] => none
        | c2 :: rest2 =>
          if c2 = ' ' then
            match fuel with
            | 0 => none
            | fuel' + 1 =>
              match parseTupleChars fuel' rest2 with
              | some (r, rest3) => parseRowsTail fuel' rest3 (r :: acc)
              | none => none
          else none
      else none

/-- Parse a full `str(rows)` rendering: `[` then tuples then `]`, with no
trailing characters. -/
def parseRowsChars (fuel : Nat) (input : List Char) : Option (List Row) :=
  match input with
  | [] => none
  | c :: rest =>
    if c = '[' then
      match rest with
      | [] => none
      | c2 :: rest2 =>
        if c2 = ']' then if rest2 = [] then some [] else none
        else
          match parseTupleChars fuel (c2 :: rest2) with
          | some (r, rest3) =>
            match parseRowsTail fuel rest3 [r] with
            | some (rs, rest4) => if rest4 = [] then some rs else none
            | none => none
          | none => none
    else none

/-- Parse the string `execute_sql` returns for a result set back into the
row tuples. -/
def parseRows (s : String) : Option (List Row) := parseRowsChars s.length s.data

/-- The input does not begin with a digit (so a digit run before it is
maximal). -/
def noDigitHead : List Char → Bool
  | [] => true
  | c :: _ => !c.isDigit

/-! ## Round-trip lemmas: numbers -/

theorem digitVal_digitChar {n : Nat} (h : n < 10) : digitVal (digitChar n) = n := by
  interval_cases n <;> decide

theorem isDigit_digitChar {n : Nat} (h : n < 10) : (digitChar n).isDigit = true := by
  interval_cases n <;> decide

theorem natDigits_all_digit : ∀ fuel n c, c ∈ natDigits fuel n → c.isDigit = true := by
  intro fuel
  induction fuel with
  | zero => intro n c hc; simp [natDigits] at hc
  | succ fuel ih =>
    intro n c hc
    by_cases h : n < 10
    · simp [natDigits, h] at hc
      subst hc; exact isDigit_digitChar h
    · simp [natDigits, h] at hc
      rcases hc with hc | hc
      · exact ih _ _ hc
      · subst hc; exact isDigit_digitChar (Nat.mod_lt _ (by omega))

theorem natDigits_cons (fuel n : Nat) :
    ∃ c t, natDigits (fuel + 1) n = c :: t := by
  by_cases h : n < 10
  · exact ⟨digitChar n, [], by simp [natDigits, h]⟩
  · simp only [natDigits, h, if_false]
    rcases natDigits fuel (n / 10) with _ | ⟨c, t⟩
    · exact ⟨digitChar (n % 10), [], rfl⟩
    · exact ⟨c, t ++ [digitChar (n % 10)], rfl⟩

theorem foldl_natDigits : ∀ fuel n acc, n < 10 ^ fuel →
    (natDigits fuel n).foldl (fun a c => a * 10 + digitVal c) acc
      = acc * 10 ^ (natDigits fuel n).length + n := by
  intro fuel
  induction fuel with
  | zero => intro n acc h; simp [natDigits]; omega
  | succ fuel ih =>
    intro n acc h
    by_cases h10 : n < 10
    · simp [natDigits, h10, digitVal_digitChar h10]
    · have hdiv : n / 10 < 10 ^ fuel := by
        rw [Nat.div_lt_iff_lt_mul (by norm_num)]
        calc n < 10 ^ (fuel + 1) := h
        _ = 10 ^ fuel * 10 := by ring
      simp only [natDigits, h10, if_false, List.foldl_append, List.length_append,
        List.foldl_cons, List.foldl_nil, List.length_cons, List.length_nil]
      rw [ih _ acc hdiv]
      have hmod : n % 10 < 10 := Nat.mod_lt _ (by omega)
      rw [digitVal_digitChar hmod]
      have := Nat.div_add_mod n 10
      ring_nf
      omega

theorem parseNatAux_digits : ∀ ds rest acc, (∀ c ∈ ds, c.isDigit = true) →
    noDigitHead rest = true →
    parseNatAux (ds ++ rest) acc
      = (ds.foldl (fun a c => a * 10 + digitVal c) acc, rest) := by
  intro ds
  induction ds with
  | nil =>
    intro rest acc _ hrest
    cases rest with
    | nil => simp [parseNatAux]
    | cons c t =>
      simp only [noDigitHead, Bool.not_eq_true'] at hrest
      simp [parseNatAux, hrest]
  | cons c ds ih =>
    intro rest acc hds hrest
    have hc : c.isDigit = true := hds c (by simp)
    simp only [List.cons_append, parseNatAux, hc, if_true, List.foldl_cons]
    exact ih rest _ (fun d hd => hds d (by simp [hd])) hrest

theorem parseNatAux_natChars (n : Nat) (rest : List Char)
    (hrest : noDigitHead rest = true) :
    ∃ c t, natChars n = c :: t ∧ c.isDigit = true ∧
      parseNatAux (t ++ rest) (digitVal c) = (n, rest) := by
  obtain ⟨c, t, hct⟩ := natDigits_cons n n
  refine ⟨c, t, hct, natDigits_all_digit _ _ c (by rw [hct]; simp), ?_⟩
  have hall : ∀ d ∈ t, d.isDigit = true := fun d hd =>
    natDigits_all_digit (n + 1) n d (by rw [hct]; simp [hd])
  rw [parseNatAux_digits t rest _ hall hrest]
  have hpow : n < 10 ^ (n + 1) := by
    calc n < 10 ^ n := Nat.lt_pow_self (by norm_num) n
    _ ≤ 10 ^ (n + 1) := Nat.pow_le_pow_right (by norm_num) (by omega)
  have hfold := foldl_natDigits (n + 1) n 0 hpow
  rw [hct] at hfold
  simp only [List.foldl_cons, Nat.zero_mul, Nat.zero_add] at hfold
  rw [hfold]

/-! ## Round-trip lemmas: scalars -/

theorem pyQuote_cases (s : String) : pyQuote s = '\'' ∨ pyQuote s = '"' := by
  unfold pyQuote; split <;> simp

theorem char_ne_of_isDigit {c : Char} (h : c.isDigit = true) :
    c ≠ 'N' ∧ c ≠ '\'' ∧ c ≠ '"' ∧ c ≠ '-' := by
  refine ⟨?_, ?_, ?_, ?_⟩ <;> (rintro rfl; exact absurd h (by decide))

theorem parseVal_none (r : List Char) :
    parseVal ('N' :: 'o' :: 'n' :: 'e' :: r) = some (PyVal.nullV, r) := rfl

theorem parseVal_quote_single (rest : List Char) :
    parseVal ('\'' :: rest)
      = (parseStrBody '\'' rest []).map (fun p => (PyVal.textV p.1, p.2)) := rfl

theorem parseVal_quote_double (rest : List Char) :
    parseVal ('"' :: rest)
      = (parseStrBody '"' rest []).map (fun p => (PyVal.textV p.1, p.2)) := rfl

theorem parseVal_digit {c : Char} (h : c.isDigit = true) (rest : List Char) :
    parseVal (c :: rest)
      = some (PyVal.intV ((parseNatAux rest (digitVal c)).1 : Int),
          (parseNatAux rest (digitVal c)).2) := by
  obtain ⟨h1, h2, h3, h4⟩ := char_ne_of_isDigit h
  simp only [parseVal, if_neg h1, if_neg h2, if_neg h3, if_neg h4, if_pos h]

theorem parseVal_neg {c2 : Char} (h : c2.isDigit = true) (rest2 : List Char) :
    parseVal ('-' :: c2 :: rest2)
      = some (PyVal.intV (-((parseNatAux rest2 (digitVal c2)).1 : Int)),
          (parseNatAux rest2 (digitVal c2)).2) := by
  have : parseVal ('-' :: c2 :: rest2)
      = (if c2.isDigit then
          some (PyVal.intV (-((parseNatAux rest2 (digitVal c2)).1 : Int)),
            (parseNatAux rest2 (digitVal c2)).2)
        else none) := rfl
  rw [this, if_pos h]

theorem parseStrBody_raw {q c : Char} (h1 : ¬(c = '\\')) (h2 : ¬(c = q))
    (rest acc : List Char) :
    parseStrBody q (c :: rest) acc = parseStrBody q rest (c :: acc) := by
  rw [parseStrBody.eq_def]
  dsimp only
  rw [if_neg h1, if_neg h2]

theorem parseStrBody_close {q : Char} (h1 : ¬(q = '\\')) (rest acc : List Char) :
    parseStrBody q (q :: rest) acc = some (String.mk acc.reverse, rest) := by
  rw [parseStrBody.eq_def]
  dsimp only
  rw [if_neg h1, if_pos rfl]

theorem parseStrBody_esc_bs (q : Char) (rest acc : List Char) :
    parseStrBody q ('\\' :: '\\' :: rest) acc = parseStrBody q rest ('\\' :: acc) := by
  simp [parseStrBody]

theorem parseStrBody_esc_q {q : Char} (hq : q = '\'' ∨ q = '"') (rest acc : List Char) :
    parseStrBody q ('\\' :: q :: rest) acc = parseStrBody q rest (q :: acc) := by
  rcases hq with rfl | rfl <;> simp [parseStrBody]

theorem parseStrBody_esc_n {q : Char} (hq : q = '\'' ∨ q = '"') (rest acc : List Char) :
    parseStrBody q ('\\' :: 'n' :: rest) acc = parseStrBody q rest ('\n' :: acc) := by
  rcases hq with rfl | rfl <;> simp [parseStrBody]

theorem parseStrBody_esc_r {q : Char} (hq : q = '\'' ∨ q = '"') (rest acc : List Char) :
    parseStrBody q ('\\' :: 'r' :: rest) acc = parseStrBody q rest ('\r' :: acc) := by
  rcases hq with rfl | rfl <;> simp [parseStrBody]

theorem parseStrBody_esc_t {q : Char} (hq : q = '\'' ∨ q = '"') (rest acc : List Char) :
    parseStrBody q ('\\' :: 't' :: rest) acc = parseStrBody q rest ('\t' :: acc) := by
  rcases hq with rfl | rfl <;> simp [parseStrBody]

theorem parseStrBody_rt {q : Char} (hq : q = '\'' ∨ q = '"') :
    ∀ (cs acc rest : List Char),
    parseStrBody q ((cs.flatMap (escCharP q)) ++ (q :: rest)) acc
      = some (String.mk (acc.reverse ++ cs), rest) := by
  have hqb : ¬(q = '\\') := by rcases hq with rfl | rfl <;> decide
  intro cs
  induction cs with
  | nil =>
    intro acc rest
    rw [List.flatMap_nil, List.nil_append, parseStrBody_close hqb]
    simp
  | cons c cs ih =>
    intro acc rest
    rw [List.flatMap_cons, List.append_assoc]
    by_cases hc1 : c = '\\'
    · subst hc1
      rw [show escCharP q '\\' = ['\\', '\\'] by simp [escCharP]]
      simp only [List.cons_append, List.nil_append]
      rw [parseStrBody_esc_bs, ih]
      simp
    · by_cases hc2 : c = q
      · rw [hc2, show escCharP q q = ['\\', q] by simp [escCharP, hqb]]
        simp only [List.cons_append, List.nil_append]
        rw [parseStrBody_esc_q hq, ih]
        simp
      · by_cases hc3 : c = '\n'
        · subst hc3
          have hnq : ¬('\n' = q) := by rcases hq with rfl | rfl <;> decide
          rw [show escCharP q '\n' = ['\\', 'n'] by simp [escCharP, hnq]]
          simp only [List.cons_append, List.nil_append]
          rw [parseStrBody_esc_n hq, ih]
          simp
        · by_cases hc4 : c = '\r'
          · subst hc4
            have hrq : ¬('\r' = q) := by rcases hq with rfl | rfl <;> decide
            rw [show escCharP q '\r' = ['\\', 'r'] by simp [escCharP, hrq]]
            simp only [List.cons_append, List.nil_append]
            rw [parseStrBody_esc_r hq, ih]
            simp
          · by_cases hc5 : c = '\t'
            · subst hc5
              have htq : ¬('\t' = q) := by rcases hq with rfl | rfl <;> decide
              rw [show escCharP q '\t' = ['\\', 't'] by simp [escCharP, htq]]
              simp only [List.cons_append, List.nil_append]
              rw [parseStrBody_esc_t hq, ih]
              simp
            · rw [show escCharP q c = [c] by simp [escCharP, hc1, hc2, hc3, hc4, hc5]]
              simp only [List.cons_append, List.nil_append]
              rw [parseStrBody_raw hc1 hc2, ih]
              simp

theorem parseVal_rt (v : PyVal) (rest : List Char) (hrest : noDigitHead rest = true) :
    parseVal (reprValChars v ++ rest) = some (v, rest) := by
  cases v with
  | nullV => simp [reprValChars, parseVal_none]
  | intV z =>
    by_cases hz : z < 0
    · obtain ⟨c, t, hct, hcd, hparse⟩ := parseNatAux_natChars z.natAbs rest hrest
      simp only [reprValChars, intChars, if_pos hz, hct, List.cons_append]
      rw [parseVal_neg hcd, hparse]
      have hzz : ((z.natAbs : Int)) = -z := by omega
      simp [hzz]
    · obtain ⟨c, t, hct, hcd, hparse⟩ := parseNatAux_natChars z.natAbs rest hrest
      simp only [reprValChars, intChars, if_neg hz, hct, List.cons_append]
      rw [parseVal_digit hcd, hparse]
      have hzz : ((z.natAbs : Int)) = z := by omega
      simp [hzz]
  | textV s =>
    rcases pyQuote_cases s with hq | hq
    · simp only [reprValChars, reprStrChars, hq, List.cons_append, List.append_assoc,
        List.singleton_append]
      rw [parseVal_quote_single]
      rw [parseStrBody_rt (Or.inl rfl)]
      simp
    · simp only [reprValChars, reprStrChars, hq, List.cons_append, List.append_assoc,
        List.singleton_append]
      rw [parseVal_quote_double]
      rw [parseStrBody_rt (Or.inr rfl)]
      simp

/-! ## Round-trip lemmas: tuples and row lists -/

/-- The glue text between tuple elements after the first: `", " value`
repetitions. -/
def glueVals (vs : List PyVal) : List Char :=
  vs.flatMap (fun v => ',' :: ' ' :: reprValChars v)

/-- The glue text between rendered rows after the first: `", " tuple`
repetitions. -/
def glueRows (rs : List Row) : List Char :=
  rs.flatMap (fun r => ',' :: ' ' :: reprRowChars r)

/-- The number of parser fuel units a row list consumes: one per row plus one
per field. -/
def sizeRows : List Row → Nat
  | [] => 0
  | r :: rs => 1 + r.length + sizeRows rs

theorem reprVal_head (v : PyVal) : ∃ c t, reprValChars v = c :: t ∧ ¬(c = ')') := by
  cases v with
  | nullV => exact ⟨'N', _, rfl, by decide⟩
  | intV z =>
    by_cases hz : z < 0
    · refine ⟨'-', natChars z.natAbs, ?_, by decide⟩
      simp [reprValChars, intChars, hz]
    · obtain ⟨c, t, hct⟩ := natDigits_cons z.natAbs z.natAbs
      have hcd : c.isDigit = true := natDigits_all_digit _ _ c (by rw [hct]; simp)
      refine ⟨c, t, ?_, ?_⟩
      · simp only [reprValChars, intChars, if_neg hz, natChars, hct]
      · rintro rfl; exact absurd hcd (by decide)
  | textV s =>
    refine ⟨pyQuote s, _, rfl, ?_⟩
    rcases pyQuote_cases s with h | h <;> (rw [h]; decide)

theorem reprRow_head (r : Row) : ∃ t, reprRowChars r = '(' :: t := by
  rcases r with _ | ⟨v, _ | ⟨v2, vs⟩⟩ <;> exact ⟨_, rfl⟩

theorem sepJoin_cons (sep x : List Char) (xs : List (List Char)) :
    sepJoin sep (x :: xs) = x ++ xs.flatMap (fun y => sep ++ y) := by
  induction xs generalizing x with
  | nil => simp [sepJoin]
  | cons y ys ih => simp [sepJoin, ih]

theorem flatMap_glueVals (vs : List PyVal) :
    (vs.map reprValChars).flatMap (fun y => [',', ' '] ++ y) = glueVals vs := by
  induction vs with
  | nil => simp [glueVals]
  | cons v vs ih => simp [glueVals] at ih ⊢; simp [ih]

theorem flatMap_glueRows (rs : List Row) :
    (rs.map reprRowChars).flatMap (fun y => [',', ' '] ++ y) = glueRows rs := by
  induction rs with
  | nil => simp [glueRows]
  | cons r rs ih => simp [glueRows] at ih ⊢; simp [ih]

theorem noDigitHead_glueVals (vs : List PyVal) {c : Char} (h : c.isDigit = false)
    (rest : List Char) :
    noDigitHead (glueVals vs ++ (c :: rest)) = true := by
  cases vs with
  | nil => simp [glueVals, noDigitHead, h]
  | cons v vs => simp [glueVals, noDigitHead]

theorem parseTupleTail_close1 (fuel : Nat) (acc : List PyVal) (rest : List Char) :
    parseTupleTail fuel (',' :: ')' :: rest) acc = some (acc.reverse, rest) := by
  rw [parseTupleTail.eq_def]
  simp

theorem parseTupleTail_close2 (fuel : Nat) (acc : List PyVal) (rest : List Char) :
    parseTupleTail fuel (')' :: rest) acc = some (acc.reverse, rest) := by
  rw [parseTupleTail.eq_def]
  simp

theorem parseTupleTail_step (fuel : Nat) (acc : List PyVal) (input : List Char) :
    parseTupleTail (fuel + 1) (',' :: ' ' :: input) acc
      = (match parseVal input with
        | some (v, r) => parseTupleTail fuel r (v :: acc)
        | none => none) := by
  rw [parseTupleTail.eq_def]
  simp

theorem parseTupleTail_rt : ∀ (vs : List PyVal) (fuel : Nat) (acc : List PyVal)
    (rest : List Char), vs.length ≤ fuel →
    parseTupleTail fuel (glueVals vs ++ (')' :: rest)) acc
      = some (acc.reverse ++ vs, rest) := by
  intro vs
  induction vs with
  | nil =>
    intro fuel acc rest _
    simp [glueVals, parseTupleTail_close2]
  | cons v vs ih =>
    intro fuel acc rest h
    cases fuel with
    | zero => simp at h
    | succ fuel =>
      simp only [glueVals, List.flatMap_cons, List.cons_append, List.append_assoc]
      rw [parseTupleTail_step]
      have hnd : noDigitHead (glueVals vs ++ (')' :: rest)) = true :=
        noDigitHead_glueVals vs (by decide) rest
      rw [show vs.flatMap (fun v => ',' :: ' ' :: reprValChars v) ++ ')' :: rest
            = glueVals vs ++ (')' :: rest) from rfl]
      rw [parseVal_rt v _ hnd]
      dsimp only
      rw [ih fuel (v :: acc) rest (by simp at h ⊢; omega)]
      simp

theorem parseTupleChars_nilrow (fuel : Nat) (rest : List Char) :
    parseTupleChars fuel ('(' :: ')' :: rest) = some ([], rest) := by
  simp [parseTupleChars]

theorem parseTupleChars_go (fuel : Nat) {c2 : Char} (h : ¬(c2 = ')')) (t : List Char) :
    parseTupleChars fuel ('(' :: c2 :: t)
      = (match parseVal (c2 :: t) with
        | some (v, r) => parseTupleTail fuel r [v]
        | none => none) := by
  simp [parseTupleChars, h]

theorem parseTupleChars_rt : ∀ (r : Row) (fuel : Nat) (rest : List Char),
    r.length ≤ fuel →
    parseTupleChars fuel (reprRowChars r ++ rest) = some (r, rest) := by
  intro r fuel rest h
  rcases r with _ | ⟨v1, _ | ⟨v2, vs⟩⟩
  · rw [show reprRowChars [] ++ rest = '(' :: ')' :: rest from rfl,
        parseTupleChars_nilrow]
  · obtain ⟨c2, t2, hct, hc2⟩ := reprVal_head v1
    rw [show reprRowChars [v1] ++ rest
          = '(' :: (reprValChars v1 ++ (',' :: ')' :: rest)) from by
      rw [show reprRowChars [v1] = '(' :: (reprValChars v1 ++ [',', ')']) from rfl]
      simp]
    rw [hct, List.cons_append, parseTupleChars_go fuel hc2,
        ← List.cons_append, ← hct]
    rw [parseVal_rt v1 _ (by rfl)]
    dsimp only
    rw [parseTupleTail_close1]
    rfl
  · obtain ⟨c2, t2, hct, hc2⟩ := reprVal_head v1
    have hfold : sepJoin [',', ' ']
          (reprValChars v1 :: reprValChars v2 :: vs.map reprValChars)
        = reprValChars v1 ++ glueVals (v2 :: vs) := by
      rw [sepJoin_cons]
      congr 1
      rw [show (reprValChars v2 :: vs.map reprValChars)
            = (v2 :: vs).map reprValChars from rfl, flatMap_glueVals]
    rw [show reprRowChars (v1 :: v2 :: vs)
          = '(' :: (sepJoin [',', ' ']
              (reprValChars v1 :: reprValChars v2 :: vs.map reprValChars) ++ [')'])
        from rfl, hfold]
    rw [List.cons_append, List.append_assoc, List.append_assoc]
    rw [show ([')'] ++ rest) = ')' :: rest from rfl]
    rw [hct, List.cons_append, parseTupleChars_go fuel hc2,
        ← List.cons_append, ← hct]
    rw [parseVal_rt v1 _ (noDigitHead_glueVals _ (by decide) rest)]
    dsimp only
    rw [parseTupleTail_rt (v2 :: vs) fuel [v1] rest (by simp at h ⊢; omega)]
    rfl

theorem parseRowsTail_close (fuel : Nat) (acc : List Row) (rest : List Char) :
    parseRowsTail fuel (']' :: rest) acc = some (acc.reverse, rest) := by
  rw [parseRowsTail.eq_def]
  simp

theorem parseRowsTail_step (fuel : Nat) (acc : List Row) (input : List Char) :
    parseRowsTail (fuel + 1) (',' :: ' ' :: input) acc
      = (match parseTupleChars fuel input with
        | some (r, rest3) => parseRowsTail fuel rest3 (r :: acc)
        | none => none) := by
  rw [parseRowsTail.eq_def]
  simp

theorem parseRowsTail_rt : ∀ (rs : List Row) (fuel : Nat) (acc : List Row)
    (rest : List Char), sizeRows rs ≤ fuel →
    parseRowsTail fuel (glueRows rs ++ (']' :: rest)) acc
      = some (acc.reverse ++ rs, rest) := by
  intro rs
  induction rs with
  | nil =>
    intro fuel acc rest _
    simp [glueRows, parseRowsTail_close]
  | cons r rs ih =>
    intro fuel acc rest h
    cases fuel with
    | zero => simp [sizeRows] at h
    | succ fuel =>
      simp only [glueRows, List.flatMap_cons, List.cons_append, List.append_assoc]
      rw [parseRowsTail_step]
      rw [show rs.flatMap (fun r => ',' :: ' ' :: reprRowChars r) ++ ']' :: rest
            = glueRows rs ++ (']' :: rest) from rfl]
      rw [parseTupleChars_rt r fuel _ (by simp [sizeRows] at h; omega)]
      dsimp only
      rw [ih fuel (r :: acc) rest (by simp [sizeRows] at h; omega)]
      simp

theorem reprVal_length (v : PyVal) : 1 ≤ (reprValChars v).length := by
  obtain ⟨c, t, hct, _⟩ := reprVal_head v
  rw [hct]; simp

theorem reprRow_length (r : Row) : r.length + 2 ≤ (reprRowChars r).length := by
  rcases r with _ | ⟨v1, _ | ⟨v2, vs⟩⟩
  · simp [reprRowChars]
  · simp [reprRowChars]
  · have h1 := reprVal_length v1
    have hglue : ∀ ws : List PyVal, 3 * ws.length ≤ (glueVals ws).length := by
      intro ws
      induction ws with
      | nil => simp [glueVals]
      | cons w has ihw =>
        have := reprVal_length w
        simp only [glueVals, List.flatMap_cons, List.length_append,
          List.length_cons] at ihw ⊢
        omega
    have hglue2 := hglue (v2 :: vs)
    rw [show reprRowChars (v1 :: v2 :: vs)
          = '(' :: (sepJoin [',', ' ']
              (reprValChars v1 :: reprValChars v2 :: vs.map reprValChars) ++ [')'])
        from rfl]
    rw [sepJoin_cons]
    rw [show (reprValChars v2 :: vs.map reprValChars)
          = (v2 :: vs).map reprValChars from rfl, flatMap_glueVals]
    simp only [List.length_cons, List.length_append, List.length_singleton]
    simp only [List.length_cons] at hglue2
    omega

theorem sizeRows_le_glueRows (rs : List Row) : sizeRows rs ≤ (glueRows rs).length := by
  induction rs with
  | nil => simp [sizeRows, glueRows]
  | cons r rs ih =>
    have := reprRow_length r
    simp only [sizeRows, glueRows, List.flatMap_cons, List.length_append,
      List.length_cons]
    simp only [glueRows] at ih
    omega

theorem reprRowsChars_cons (r : Row) (rs : List Row) :
    reprRowsChars (r :: rs) = '[' :: (reprRowChars r ++ (glueRows rs ++ [']'])) := by
  rw [show reprRowsChars (r :: rs)
        = '[' :: (sepJoin [',', ' '] ((r :: rs).map reprRowChars) ++ [']'])
      from rfl]
  rw [List.map_cons, sepJoin_cons, flatMap_glueRows, List.append_assoc]

theorem parseRowsChars_go (fuel : Nat) {c2 : Char} (h : ¬(c2 = ']')) (t : List Char) :
    parseRowsChars fuel ('[' :: c2 :: t)
      = (match parseTupleChars fuel (c2 :: t) with
        | some (r, rest3) =>
          (match parseRowsTail fuel rest3 [r] with
          | some (rs, rest4) => if rest4 = [] then some rs else none
          | none => none)
        | none => none) := by
  simp [parseRowsChars, h]

theorem parseRows_rt (rs : List Row) : parseRows (pyStrRows rs) = some rs := by
  cases rs with
  | nil => decide
  | cons r rs =>
    obtain ⟨t, hrt⟩ := reprRow_head r
    have hr2 := reprRow_length r
    have hsz := sizeRows_le_glueRows rs
    have hlen : (pyStrRows (r :: rs)).length = (reprRowsChars (r :: rs)).length := rfl
    have hdata : (pyStrRows (r :: rs)).data = reprRowsChars (r :: rs) := rfl
    rw [parseRows, hlen, hdata, reprRowsChars_cons]
    have hfl : (('[' :: (reprRowChars r ++ (glueRows rs ++ [']']))).length)
        = (reprRowChars r).length + (glueRows rs).length + 2 := by
      simp only [List.length_cons, List.length_append, List.length_singleton,
        List.length_nil]
      omega
    rw [hfl]
    rw [hrt, List.cons_append]
    rw [parseRowsChars_go _ (by decide)]
    rw [← List.cons_append, ← hrt]
    rw [show (glueRows rs ++ [']']) = (glueRows rs ++ (']' :: ([] : List Char)))
        from rfl]
    rw [parseTupleChars_rt r _ _ (by omega)]
    dsimp only
    rw [parseRowsTail_rt rs _ [r] [] (by omega)]
    simp

/-! ## Tool-level helper lemmas -/

theorem execute_sql_eq_error (sem : SqlSem σ) (db : DbState σ) (q : String)
    (hist : Option (List String)) (e : String)
    (he : execute_sql_try sem db q = Except.error e) :
    execute_sql sem db q hist = ("Error: " ++ e, db, hist.map (fun h => h ++ [q])) := by
  simp [execute_sql, he]

theorem execute_sql_eq_ok (sem : SqlSem σ) (db : DbState σ) (q : String)
    (hist : Option (List String)) (out : String × DbState σ)
    (ho : execute_sql_try sem db q = Except.ok out) :
    execute_sql sem db q hist = (out.1, out.2, hist.map (fun h => h ++ [q])) := by
  simp [execute_sql, ho]

theorem engineError_try (sem : SqlSem σ) (db : DbState σ) (q : String) (e : String)
    (he : engineError sem db q = some e) :
    execute_sql_try sem db q = Except.error e := by
  unfold engineError at he
  unfold execute_sql_try
  cases hsem : sem q with
  | error e2 =>
    rw [hsem] at he
    dsimp only at he
    simp_all
  | ok st =>
    rw [hsem] at he
    cases st with
    | selectQ read =>
      dsimp only at he ⊢
      cases hread : read db.current with
      | error e2 =>
        rw [hread] at he
        dsimp only at he ⊢
        simp_all
      | ok rows =>
        rw [hread] at he
        dsimp only at he
        cases he
    | mutateQ write =>
      dsimp only at he ⊢
      cases hw : write db.current with
      | error e2 =>
        rw [hw] at he
        dsimp only at he ⊢
        simp_all
      | ok s2 =>
        rw [hw] at he
        dsimp only at he
        cases he

theorem try_select (sem : SqlSem σ) (db : DbState σ) (q : String)
    (read : σ → Except String (List Row)) (rows : List Row)
    (hq : sem q = Except.ok (Stmt.selectQ read))
    (hr : read db.current = Except.ok rows) :
    execute_sql_try sem db q = Except.ok (pyStrRows rows, db) := by
  unfold execute_sql_try
  rw [hq]
  dsimp only
  rw [hr]

theorem try_mutate (sem : SqlSem σ) (db : DbState σ) (q : String)
    (write : σ → Except String σ) (s2 : σ)
    (hq : sem q = Except.ok (Stmt.mutateQ write))
    (hw : write db.current = Except.ok s2) :
    execute_sql_try sem db q
      = Except.ok ("Query executed successfully (no data returned).",
          DbState.commit { db with current := s2 }) := by
  unfold execute_sql_try
  rw [hq]
  dsimp only
  rw [hw]

theorem execute_sql_snd_history (sem : SqlSem σ) (db : DbState σ) (q : String)
    (h : List String) :
    (execute_sql sem db q (some h)).2.2 = some (h ++ [q]) := by
  cases htry : execute_sql_try sem db q with
  | error e => simp [execute_sql, htry]
  | ok out => simp [execute_sql, htry]

theorem runQueries_history (sem : SqlSem σ) :
    ∀ (qs : List String) (db : DbState σ) (h0 : List String),
    (runQueries sem qs (db, h0)).2 = h0 ++ qs := by
  intro qs
  induction qs with
  | nil => intro db h0; simp [runQueries]
  | cons q qs ih =>
    intro db h0
    rw [show runQueries sem (q :: qs) (db, h0)
          = runQueries sem qs ((execute_sql sem db q (some h0)).2.1,
              ((execute_sql sem db q (some h0)).2.2).getD h0) from rfl]
    rw [execute_sql_snd_history]
    simp only [Option.getD_some]
    rw [ih]
    simp

theorem get_schema_table (cat : Catalog) (t : String) (hv : validIdent t = true) :
    get_schema cat (some t)
      = Except.ok (pyStrPairList
          (((cat.find? (fun e => e.1 == t)).map Prod.snd).getD [])) := by
  have ht : ¬(t = "") := by
    intro h
    subst h
    exact absurd hv (by decide)
  simp [get_schema, truthy, pragma_table_info, hv, ht]

theorem pyStrPairList_ne_empty (p : String × String) (ps : List (String × String)) :
    pyStrPairList (p :: ps) ≠ "[]" := by
  intro hcontra
  have hdata : (pyStrPairList (p :: ps)).data = "[]".data := by rw [hcontra]
  rw [show (pyStrPairList (p :: ps)).data
        = '[' :: (sepJoin [',', ' '] ((p :: ps).map reprPairChars) ++ [']'])
      from rfl] at hdata
  rw [List.map_cons, sepJoin_cons] at hdata
  rw [show reprPairChars p
        = '(' :: (reprStrChars p.1 ++ [',', ' '] ++ reprStrChars p.2 ++ [')'])
      from rfl] at hdata
  simp at hdata

/-! ## Concrete instances for the witnesses and counterexamples -/

/-- A trivial connection state for engine-level witnesses. -/
def unitDb : DbState Unit := { committed := (), current := () }

/-- An engine in which every query text is malformed SQL. -/
def semFail : SqlSem Unit := fun _ =>
  Except.error ("near \"SELEC\": syntax error")

/-- An engine exposing one two-column table via one SELECT statement. -/
def semUsers : SqlSem Unit := fun q =>
  if q = "SELECT * FROM users" then
    Except.ok (Stmt.selectQ (fun _ => Except.ok
      [[PyVal.intV 1, PyVal.textV "Alice"], [PyVal.intV 2, PyVal.textV "Bob"]]))
  else Except.error "unrecognized statement"

/-- An engine over a one-table state with one INSERT and one SELECT. -/
def semDemo : SqlSem (List Row) := fun q =>
  if q = "INSERT INTO t VALUES (1)" then
    Except.ok (Stmt.mutateQ (fun s => Except.ok (s ++ [[PyVal.intV 1]])))
  else if q = "SELECT * FROM t" then
    Except.ok (Stmt.selectQ (fun s => Except.ok s))
  else Except.error "unrecognized statement"

/-- The connection state behind `semDemo`, initially empty. -/
def dbDemo : DbState (List Row) := { committed := [], current := [] }

/-- A concrete catalog with one two-column table. -/
def catEx : Catalog := [("users", [("id", "INTEGER"), ("name", "TEXT")])]

/-- Filesystem operations that fail with an I/O exception. -/
def failOps : OsOps Unit where
  makedirs := fun _ _ => Except.error "Disk full"
  writeFile := fun _ _ _ => Except.error "Disk full"

/-! ## The claims -/

/-- Claim C1: for every malformed SQL input string and every database
execution error, `execute_sql` returns a string that begins with
`"Error: "` followed by the engine's error text; the error is returned as a
value rather than raised (the embedding is a total function into `String`,
mirroring the `except sqlite3.Error` handler). -/
theorem execute_sql_error_string (sem : SqlSem σ) (db : DbState σ) (q : String)
    (hist : Option (List String)) (e : String)
    (he : engineError sem db q = some e) :
    (execute_sql sem db q hist).1 = "Error: " ++ e := by
  rw [execute_sql_eq_error sem db q hist e (engineError_try sem db q e he)]

/-- Witness for C1 at a concrete malformed query. -/
theorem execute_sql_error_string_witness :
    (execute_sql semFail unitDb "SELEC * FROM t" none).1
      = "Error: " ++ ("near \"SELEC\": syntax error") :=
  execute_sql_error_string semFail unitDb "SELEC * FROM t" none
    ("near \"SELEC\": syntax error") rfl

/-- Claim C2 as stated is false: `get_schema` has no exception handler, so a
malformed table name interpolated into `PRAGMA table_info(...)` makes the
engine raise, and that exception crosses the tool boundary
(`Except.error`). -/
theorem get_schema_raises_counterexample :
    get_schema catEx (some "users; DROP")
      = Except.error "unrecognized token in \"PRAGMA table_info(users; DROP);\"" := by
  rfl

/-- Claim C2 (amended): no exception crosses the boundary of `execute_sql`
or `save_data_to_csv` — every exception their bodies raise is converted to
an error string — but `get_schema` returns a string iff its argument is
falsy or a well-formed identifier, and propagates the engine's exception on
a malformed table name. -/
theorem tool_exception_policy (sem : SqlSem σ) (db : DbState σ) (q : String)
    (hist : Option (List String)) (os : OsOps φ) (fs : φ) (cwd : String)
    (data : PyData) (filename : String) (cat : Catalog) (tn : Option String) :
    ((∃ e, execute_sql_try sem db q = Except.error e ∧
        (execute_sql sem db q hist).1 = "Error: " ++ e) ∨
      (∃ out, execute_sql_try sem db q = Except.ok out ∧
        (execute_sql sem db q hist).1 = out.1))
    ∧ ((∃ e, (save_data_to_csv_try os fs cwd data filename).1 = Except.error e ∧
        (save_data_to_csv os fs cwd data filename).1 = "Error saving CSV: " ++ e) ∨
      (∃ msg, (save_data_to_csv_try os fs cwd data filename).1 = Except.ok msg ∧
        (save_data_to_csv os fs cwd data filename).1 = msg))
    ∧ ((∃ s, get_schema cat tn = Except.ok s) ↔
        (truthy tn = false ∨ validIdent (tn.getD "") = true)) := by
  refine ⟨?_, ?_, ?_⟩
  · cases htry : execute_sql_try sem db q with
    | error e => exact Or.inl ⟨e, rfl, by simp [execute_sql, htry]⟩
    | ok out => exact Or.inr ⟨out, rfl, by simp [execute_sql, htry]⟩
  · rcases htry : save_data_to_csv_try os fs cwd data filename with ⟨res, fs2⟩
    cases res with
    | error e =>
      refine Or.inl ⟨e, rfl, ?_⟩
      simp [save_data_to_csv, htry]
    | ok msg =>
      refine Or.inr ⟨msg, rfl, ?_⟩
      simp [save_data_to_csv, htry]
  · by_cases ht : truthy tn = true
    · by_cases hv : validIdent (tn.getD "") = true
      · constructor
        · intro _; exact Or.inr hv
        · intro _
          exact ⟨_, by rw [get_schema, if_pos ht, pragma_table_info, if_pos hv]⟩
      · constructor
        · rintro ⟨s, hs⟩
          simp [get_schema, ht, pragma_table_info, hv] at hs
        · rintro (h1 | h2)
          · rw [ht] at h1; cases h1
          · exact absurd h2 hv
    · constructor
      · intro _
        exact Or.inl (by simpa using ht)
      · intro _
        exact ⟨pyStrStrList (tableNames cat), by simp [get_schema, ht]⟩

/-- Claim C3: the query is appended to a provided history before execution
and unconditionally (for every engine and state, including erroring ones);
after a sequence of calls sharing one history the history holds exactly the
queries in call order, so N calls starting from an empty history leave
exactly N entries, and any starting history is preserved as a prefix. -/
theorem execute_sql_history_growth (sem : SqlSem σ) (db : DbState σ)
    (qs : List String) (h0 : List String) (q : String) (h : List String) :
    (execute_sql sem db q (some h)).2.2 = some (h ++ [q])
    ∧ (runQueries sem qs (db, h0)).2 = h0 ++ qs
    ∧ (runQueries sem qs (db, ([] : List String))).2.length = qs.length
    ∧ h0 <+: (runQueries sem qs (db, h0)).2 := by
  refine ⟨execute_sql_snd_history sem db q h, runQueries_history sem qs db h0, ?_, ?_⟩
  · rw [runQueries_history sem qs db []]
    simp
  · rw [runQueries_history sem qs db h0]
    exact List.prefix_append h0 qs

/-- Claim C4: for a statement the engine reads as producing a result set
(`cursor.description` present), `execute_sql` returns `str(rows)` for
exactly the rows direct execution yields, and that rendering parses back to
the same row tuples. -/
theorem execute_sql_select_roundtrip (sem : SqlSem σ) (db : DbState σ) (q : String)
    (hist : Option (List String)) (read : σ → Except String (List Row))
    (rows : List Row)
    (hq : sem q = Except.ok (Stmt.selectQ read))
    (hr : read db.current = Except.ok rows) :
    (execute_sql sem db q hist).1 = pyStrRows rows
    ∧ parseRows (pyStrRows rows) = some rows := by
  constructor
  · rw [execute_sql_eq_ok sem db q hist _ (try_select sem db q read rows hq hr)]
  · exact parseRows_rt rows

/-- Witness for C4 at a concrete SELECT with two rows. -/
theorem execute_sql_select_roundtrip_witness :
    (execute_sql semUsers unitDb "SELECT * FROM users" none).1
      = pyStrRows [[PyVal.intV 1, PyVal.textV "Alice"], [PyVal.intV 2, PyVal.textV "Bob"]]
    ∧ parseRows (pyStrRows
        [[PyVal.intV 1, PyVal.textV "Alice"], [PyVal.intV 2, PyVal.textV "Bob"]])
      = some [[PyVal.intV 1, PyVal.textV "Alice"], [PyVal.intV 2, PyVal.textV "Bob"]] :=
  execute_sql_select_roundtrip semUsers unitDb "SELECT * FROM users" none _ _ rfl rfl

/-- Claim C5: for a statement producing no result set, `execute_sql` commits
at once (the durable state equals the new current state) and returns the
fixed success message, and a subsequent SELECT on the same connection sees
the mutation. -/
theorem execute_sql_mutate_commits (sem : SqlSem σ) (db : DbState σ) (q1 q2 : String)
    (hist : Option (List String)) (write : σ → Except String σ)
    (read : σ → Except String (List Row)) (s2 : σ) (rows : List Row)
    (h1 : sem q1 = Except.ok (Stmt.mutateQ write))
    (hw : write db.current = Except.ok s2)
    (h2 : sem q2 = Except.ok (Stmt.selectQ read))
    (hr : read s2 = Except.ok rows) :
    (execute_sql sem db q1 hist).1 = "Query executed successfully (no data returned)."
    ∧ (execute_sql sem db q1 hist).2.1.current = s2
    ∧ (execute_sql sem db q1 hist).2.1.committed = s2
    ∧ (execute_sql sem ((execute_sql sem db q1 hist).2.1) q2 none).1 = pyStrRows rows := by
  have hstep := execute_sql_eq_ok sem db q1 hist _ (try_mutate sem db q1 write s2 h1 hw)
  rw [hstep]
  refine ⟨rfl, rfl, rfl, ?_⟩
  have hsel : execute_sql_try sem (DbState.commit { db with current := s2 }) q2
      = Except.ok (pyStrRows rows, DbState.commit { db with current := s2 }) :=
    try_select sem _ q2 read rows h2 (by simpa [DbState.commit] using hr)
  rw [execute_sql_eq_ok sem _ q2 none _ hsel]

/-- Witness for C5: a concrete INSERT then SELECT on the demo engine. -/
theorem execute_sql_mutate_commits_witness :
    (execute_sql semDemo dbDemo "INSERT INTO t VALUES (1)" none).1
      = "Query executed successfully (no data returned)."
    ∧ (execute_sql semDemo dbDemo "INSERT INTO t VALUES (1)" none).2.1.current
      = [[PyVal.intV 1]]
    ∧ (execute_sql semDemo dbDemo "INSERT INTO t VALUES (1)" none).2.1.committed
      = [[PyVal.intV 1]]
    ∧ (execute_sql semDemo
        ((execute_sql semDemo dbDemo "INSERT INTO t VALUES (1)" none).2.1)
        "SELECT * FROM t" none).1 = pyStrRows [[PyVal.intV 1]] :=
  execute_sql_mutate_commits semDemo dbDemo "INSERT INTO t VALUES (1)"
    "SELECT * FROM t" none _ _ [[PyVal.intV 1]] [[PyVal.intV 1]] rfl rfl rfl rfl

/-- Claim C6: on list data, `save_data_to_csv` writes the CSV rendering of
the normalised rows to `<cwd>/files/<name>`, creating the directory, with
`.csv` appended exactly when the lower-cased filename does not already end
in it, and returns the success message carrying that absolute path; at the
concrete input from the spec it produces `./files/out.csv` with rows
`1,Alice` and `2,Bob`. -/
theorem save_data_to_csv_success (fs : FileSys) (cwd : String) (elems : List PyElem)
    (filename : String) :
    (save_data_to_csv fsOps fs cwd (PyData.listD elems) filename).1
      = "Data saved successfully to: " ++ (cwd ++ "/files" ++ "/" ++ csvFileName filename)
    ∧ ((save_data_to_csv fsOps fs cwd (PyData.listD elems) filename).2).dirs.contains
        (cwd ++ "/files") = true
    ∧ (((save_data_to_csv fsOps fs cwd (PyData.listD elems) filename).2).files.find?
        (fun e => e.1 == cwd ++ "/files" ++ "/" ++ csvFileName filename)).map Prod.snd
      = some (csvRender (elems.map normalizeRow))
    ∧ (csvFileName filename = filename ++ ".csv" ↔ endsWithCsvLower filename = false)
    ∧ save_data_to_csv fsOps { dirs := [], files := [] } "/work"
        (PyData.listD [PyElem.seqE [PyVal.intV 1, PyVal.textV "Alice"],
          PyElem.seqE [PyVal.intV 2, PyVal.textV "Bob"]]) "out"
      = ("Data saved successfully to: /work/files/out.csv",
         { dirs := ["/work/files"],
           files := [("/work/files/out.csv", "1,Alice\r\n2,Bob\r\n")] }) := by
  refine ⟨?_, ?_, ?_, ?_, ?_⟩
  · simp [save_data_to_csv, save_data_to_csv_try, fsOps]
  · simp only [save_data_to_csv, save_data_to_csv_try, fsOps]
    by_cases hc : (cwd ++ "/files") ∈ fs.dirs <;> simp [hc]
  · simp [save_data_to_csv, save_data_to_csv_try, fsOps]
  · unfold csvFileName
    by_cases hf : endsWithCsvLower filename = true
    · rw [if_pos hf]
      constructor
      · intro heq
        exfalso
        have hlen : filename.length = (filename ++ ".csv").length := by rw [← heq]
        rw [String.length_append] at hlen
        have h4 : (".csv" : String).length = 4 := rfl
        omega
      · intro hfalse
        rw [hf] at hfalse
        cases hfalse
    · rw [if_neg hf]
      exact ⟨fun _ => Bool.eq_false_iff.mpr hf, fun _ => rfl⟩
  · decide

/-- Claim C7: non-list `data` (such as a raw string) makes
`save_data_to_csv` return the fixed error string immediately, with the
filesystem untouched. -/
theorem save_data_to_csv_rejects_string (os : OsOps φ) (fs : φ)
    (cwd s filename : String) :
    save_data_to_csv os fs cwd (PyData.strD s) filename
      = ("Error: Data must be a list of tuples or lists.", fs) := rfl

/-- Claim C8 as stated is false: the wrong-data-shape error (a raw string
instead of a list) yields the fixed `"Error: Data must be ..."` message,
which does not begin with `"Error saving CSV: "`. -/
theorem save_csv_prefix_counterexample :
    (save_data_to_csv fsOps { dirs := [], files := [] } "/work"
        (PyData.strD "not a list") "out").1
      = "Error: Data must be a list of tuples or lists."
    ∧ "Error saving CSV: ".data.isPrefixOf
        (save_data_to_csv fsOps { dirs := [], files := [] } "/work"
          (PyData.strD "not a list") "out").1.data = false := by
  decide

/-- Claim C8 (amended): the non-list shape check returns the fixed
`"Error: Data must be a list of tuples or lists."` string, while every
exception escaping the export body (I/O failure in directory creation or
writing) is caught and returned as `"Error saving CSV: "` followed by the
exception text. -/
theorem save_csv_error_strings (os : OsOps φ) (fs : φ) (cwd : String)
    (data : PyData) (filename s : String) (e : String)
    (he : (save_data_to_csv_try os fs cwd data filename).1 = Except.error e) :
    (save_data_to_csv os fs cwd (PyData.strD s) filename).1
      = "Error: Data must be a list of tuples or lists."
    ∧ (save_data_to_csv os fs cwd data filename).1 = "Error saving CSV: " ++ e := by
  constructor
  · rfl
  · rcases htry : save_data_to_csv_try os fs cwd data filename with ⟨res, fs2⟩
    rw [htry] at he
    simp only at he
    subst he
    simp [save_data_to_csv, htry]

/-- Witness for C8 on concretely failing filesystem operations. -/
theorem save_csv_error_strings_witness :
    (save_data_to_csv failOps () "/work" (PyData.strD "x") "out").1
      = "Error: Data must be a list of tuples or lists."
    ∧ (save_data_to_csv failOps () "/work"
        (PyData.listD [PyElem.scalarE (PyVal.intV 1)]) "out").1
      = "Error saving CSV: " ++ "Disk full" :=
  save_csv_error_strings failOps () "/work"
    (PyData.listD [PyElem.scalarE (PyVal.intV 1)]) "out" "x" "Disk full" rfl

/-- Claim C9 as stated is false: it quantifies over every table name `t`,
but a malformed name that is absent from the catalog makes the interpolated
`PRAGMA` query raise instead of yielding the empty list. -/
theorem get_schema_missing_counterexample :
    ("bad name" ∈ tableNames catEx) = False
    ∧ get_schema catEx (some "bad name")
      = Except.error "unrecognized token in \"PRAGMA table_info(bad name);\"" := by
  constructor
  · simp [catEx, tableNames]
  · rfl

/-- Claim C9 (amended): with a well-formed identifier as table name,
`get_schema` on a missing table yields the rendering of the empty list
(`"[]"`) without error; and after the all-tables call, `get_schema` on such
a name yields a non-empty rendered list exactly when the name is among the
returned tables, provided every catalog table has at least one column. -/
theorem get_schema_missing_and_presence (cat : Catalog) (t : String)
    (hv : validIdent t = true) (hcols : ∀ p ∈ cat, p.2 ≠ []) :
    (t ∉ tableNames cat → get_schema cat (some t) = Except.ok "[]")
    ∧ get_schema cat none = Except.ok (pyStrStrList (tableNames cat))
    ∧ ((∃ s, get_schema cat (some t) = Except.ok s ∧ s ≠ "[]")
        ↔ t ∈ tableNames cat) := by
  have hfind_none : t ∉ tableNames cat →
      cat.find? (fun e => e.1 == t) = none := by
    intro hnot
    rw [List.find?_eq_none]
    intro p hp hbeq
    exact hnot (by
      simp only [tableNames, List.mem_map]
      exact ⟨p, hp, by simpa using hbeq⟩)
  refine ⟨?_, rfl, ?_, ?_⟩
  · intro hnot
    rw [get_schema_table cat t hv, hfind_none hnot]
    rfl
  · rintro ⟨s, hs, hne⟩
    by_contra hnot
    rw [get_schema_table cat t hv, hfind_none hnot] at hs
    exact hne (by injection hs with h; exact h.symm)
  · intro hmem
    have hsome : (cat.find? (fun e => e.1 == t)).isSome = true := by
      rw [List.find?_isSome]
      simp only [tableNames, List.mem_map] at hmem
      obtain ⟨p, hp, hpt⟩ := hmem
      exact ⟨p, hp, by simpa using hpt⟩
    obtain ⟨entry, hfind⟩ := Option.isSome_iff_exists.mp hsome
    have hentry_mem : entry ∈ cat := List.mem_of_find?_eq_some hfind
    have hne := hcols entry hentry_mem
    rcases hcp : entry.2 with _ | ⟨p, ps⟩
    · exact absurd hcp hne
    · refine ⟨pyStrPairList (p :: ps), ?_, pyStrPairList_ne_empty p ps⟩
      rw [get_schema_table cat t hv, hfind]
      simp [hcp]

/-- Witness for C9 at the concrete catalog, on a missing table name. -/
theorem get_schema_missing_and_presence_witness :
    get_schema catEx (some "orders") = Except.ok "[]" :=
  (get_schema_missing_and_presence catEx "orders" (by decide)
    (by decide)).1 (by decide)

/-- Claim C10: with the empty string as table name, Python's truthiness test
sends `get_schema` down the all-tables branch, so it returns the rendered
list of all table names (identical to the `None` call), not an empty column
list. -/
theorem get_schema_empty_string (cat : Catalog) :
    get_schema cat (some "") = Except.ok (pyStrStrList (tableNames cat))
    ∧ get_schema cat (some "") = get_schema cat none := by
  constructor <;> rfl

end SqlAgent

